import Mathlib

/-!
Shallow embedding of `dockerize/scripts/analyze_repo.py`.

The script inspects a repository on disk and emits a JSON report with the
detected runtime, services, ports and pre-existing Docker artifacts.  We embed
the filesystem as explicit data (`FS`), fallible Python operations as
`Except PyErr`, and CPython's hash-randomized iteration order over `set`
objects as an explicit reordering parameter `σ` (see `okOrder`).

Machine-level caveats of the model, each noted at its definition site:
regex patterns of the source are embedded as the specialized character-list
scanners they denote; Python `set` iteration is modelled by applying `σ` to a
canonical (first-occurrence) enumeration of the set's elements.
-/

namespace AnalyzeRepo

/-! ### Character and string utilities -/

/-- ASCII lower-casing of one character; models the case folding performed by
`re.IGNORECASE` on the ASCII range (all patterns in the source are ASCII). -/
def lowerChar (c : Char) : Char :=
  if 'A' ≤ c ∧ c ≤ 'Z' then Char.ofNat (c.toNat + 32) else c

/-- Lower-case every character of a character list. -/
def lowerList (cs : List Char) : List Char := cs.map lowerChar

/-- Does `hay` begin with `needle` (exact characters)? -/
def beginsWith : List Char → List Char → Bool
  | [], _ => true
  | _ :: _, [] => false
  | a :: ns, b :: hs => a = b && beginsWith ns hs

/-- Substring containment on character lists; models Python's `in` operator on
`str` and `re.search` of a literal pattern. -/
def containsSub (needle : List Char) : List Char → Bool
  | [] => beginsWith needle []
  | c :: rest => beginsWith needle (c :: rest) || containsSub needle rest

/-- Substring containment on strings. -/
def strContains (hay pat : String) : Bool :=
  containsSub pat.toList hay.toList

/-- Case-insensitive substring containment; models `re.search(pat, hay,
re.IGNORECASE)` for the literal patterns of the service table. -/
def strContainsCI (hay pat : String) : Bool :=
  containsSub (lowerList pat.toList) (lowerList hay.toList)

/-- The characters Python's `\s` matches in ASCII text. -/
def pySpace (c : Char) : Bool :=
  c = ' ' || c = '\t' || c = '\n' || c = '\r' || c = '\x0b' || c = '\x0c'

/-- `[a-zA-Z0-9_-]`, the identifier class of the dependency-extraction regexes. -/
def isIdentC (c : Char) : Bool :=
  c.isAlpha || c.isDigit || c = '_' || c = '-'

/-- Decimal value of a digit run, modelling Python `int()` on a `\d+` capture. -/
def digitsToNat (ds : List Char) : Nat :=
  ds.foldl (fun n c => 10 * n + (c.toNat - 48)) 0

/-- Split at newline characters; models iterating the lines of a text file
(`str.splitlines` restricted to `\n`, the separator used by the witnesses). -/
def splitLinesAux (cur : List Char) : List Char → List (List Char)
  | [] => [cur.reverse]
  | '\n' :: rest => cur.reverse :: splitLinesAux [] rest
  | c :: rest => splitLinesAux (c :: cur) rest

def splitLines (cs : List Char) : List (List Char) := splitLinesAux [] cs

/-- `str.strip()`: drop whitespace from both ends. -/
def stripChars (cs : List Char) : List Char :=
  ((cs.dropWhile pySpace).reverse.dropWhile pySpace).reverse

/-- Last `/`-separated component of a path string; models `Path(p).name`. -/
def lastCompAux (cur : List Char) : List Char → List Char
  | [] => cur.reverse
  | '/' :: rest => lastCompAux [] rest
  | c :: rest => lastCompAux (c :: cur) rest

def pathName (p : String) : String :=
  String.mk (lastCompAux [] p.toList)

/-- First-occurrence deduplication (keeps the first copy of each element, in
order); the canonical enumeration of a Python `dict`'s key sequence. -/
def dedupFirstAux (seen : List String) : List String → List String
  | [] => []
  | x :: xs =>
    if x ∈ seen then dedupFirstAux seen xs
    else x :: dedupFirstAux (x :: seen) xs

def dedupFirst (l : List String) : List String := dedupFirstAux [] l

/-! ### JSON values and `json.load`

`package.json` is the only JSON-parsed file.  `JVal` is the shape of a parsed
Python JSON document; `jsonLoad` models `json.load`, returning `none` where
Python raises `json.JSONDecodeError` (which the source catches). -/

inductive JVal where
  | jnull
  | jbool (b : Bool)
  | jnum (raw : String)
  | jstr (s : String)
  | jarr (xs : List JVal)
  | jobj (kvs : List (String × JVal))

/-- Skip JSON whitespace (exactly space, tab, newline, carriage return). -/
def jWs (cs : List Char) : List Char :=
  cs.dropWhile (fun c => c = ' ' || c = '\t' || c = '\n' || c = '\r')

/-- Decode one hexadecimal digit. -/
def hexVal (c : Char) : Option Nat :=
  if c.isDigit then some (c.toNat - 48)
  else if 'a' ≤ c ∧ c ≤ 'f' then some (c.toNat - 87)
  else if 'A' ≤ c ∧ c ≤ 'F' then some (c.toNat - 55)
  else none

/-- Parse the body of a JSON string (after the opening quote), handling the
escape sequences of the JSON grammar; rejects raw control characters as
Python's strict decoder does. -/
def parseStrChars : List Char → Option (List Char × List Char)
  | [] => none
  | '"' :: rest => some ([], rest)
  | '\\' :: 'u' :: h1 :: h2 :: h3 :: h4 :: rest =>
    match hexVal h1, hexVal h2, hexVal h3, hexVal h4 with
    | some a, some b, some c, some d =>
      (parseStrChars rest).map fun (l, r) =>
        (Char.ofNat (((a * 16 + b) * 16 + c) * 16 + d) :: l, r)
    | _, _, _, _ => none
  | '\\' :: e :: rest =>
    (match e with
     | '"' => some '"'
     | '\\' => some '\\'
     | '/' => some '/'
     | 'b' => some '\x08'
     | 'f' => some '\x0c'
     | 'n' => some '\n'
     | 'r' => some '\r'
     | 't' => some '\t'
     | _ => none).bind fun c =>
      (parseStrChars rest).map fun (l, r) => (c :: l, r)
  | '\\' :: [] => none
  | c :: rest =>
    if c.toNat < 32 then none
    else (parseStrChars rest).map fun (l, r) => (c :: l, r)

/-- Parse a JSON number token (the grammar `-?(0|[1-9][0-9]*)(\.[0-9]+)?
([eE][+-]?[0-9]+)?`), returning its raw text. -/
def parseNumChars (cs : List Char) : Option (List Char × List Char) :=
  let (sign, cs1) := match cs with
    | '-' :: r => ([('-' : Char)], r)
    | r => ([], r)
  let (intPart, cs2) := cs1.span Char.isDigit
  let intOk := match intPart with
    | [] => false
    | ['0'] => true
    | '0' :: _ :: _ => false
    | _ => true
  if intOk then
    let (fracPart, cs3) := match cs2 with
      | '.' :: r =>
        let (ds, r') := r.span Char.isDigit
        if ds = [] then ([('!' : Char)], r) else ('.' :: ds, r')
      | r => ([], r)
    if fracPart = ['!'] then none
    else
      let (expPart, cs4) := match cs3 with
        | 'e' :: r => (some ('e' :: [] : List Char), r)
        | 'E' :: r => (some ['E'], r)
        | r => (none, r)
      match expPart with
      | none => some (sign ++ intPart ++ fracPart, cs3)
      | some e0 =>
        let (esign, r1) := match cs4 with
          | '+' :: r => (['+'], r)
          | '-' :: r => (['-'], r)
          | r => (([] : List Char), r)
        let (eds, r2) := r1.span Char.isDigit
        if eds = [] then none
        else some (sign ++ intPart ++ fracPart ++ e0 ++ esign ++ eds, r2)
  else none

/-- Recursive-descent JSON value parser, fuel-indexed so that recursion is
structural.  An object or array is parsed one element at a time: after a
member and its comma, the remaining members are parsed as the object that
would be written with the same closing text (prefixed again with the opening
bracket), so the whole parser recurses only through `parseV`. -/
def parseV : Nat → List Char → Option (JVal × List Char)
  | 0, _ => none
  | fuel + 1, cs0 =>
    match jWs cs0 with
    | '{' :: r0 =>
      (match jWs r0 with
       | '}' :: r1 => some (JVal.jobj [], r1)
       | '"' :: r1 =>
         (parseStrChars r1).bind fun (kcs, r2) =>
           match jWs r2 with
           | ':' :: r3 =>
             (parseV fuel r3).bind fun (v, r4) =>
               (match jWs r4 with
                | ',' :: r5 =>
                  (parseV fuel ('{' :: r5)).bind fun (rest, r6) =>
                    match rest with
                    | JVal.jobj kvs => some (JVal.jobj ((String.mk kcs, v) :: kvs), r6)
                    | _ => none
                | '}' :: r5 => some (JVal.jobj [(String.mk kcs, v)], r5)
                | _ => none)
           | _ => none
       | _ => none)
    | '[' :: r0 =>
      (match jWs r0 with
       | ']' :: r1 => some (JVal.jarr [], r1)
       | _ =>
         (parseV fuel r0).bind fun (v, r2) =>
           match jWs r2 with
           | ',' :: r3 =>
             (parseV fuel ('[' :: r3)).bind fun (rest, r4) =>
               match rest with
               | JVal.jarr xs => some (JVal.jarr (v :: xs), r4)
               | _ => none
           | ']' :: r3 => some (JVal.jarr [v], r3)
           | _ => none)
    | '"' :: r0 =>
      (parseStrChars r0).map fun (scs, r1) => (JVal.jstr (String.mk scs), r1)
    | 't' :: 'r' :: 'u' :: 'e' :: r0 => some (JVal.jbool true, r0)
    | 'f' :: 'a' :: 'l' :: 's' :: 'e' :: r0 => some (JVal.jbool false, r0)
    | 'n' :: 'u' :: 'l' :: 'l' :: r0 => some (JVal.jnull, r0)
    | 'N' :: 'a' :: 'N' :: r0 => some (JVal.jnum "NaN", r0)
    | 'I' :: 'n' :: 'f' :: 'i' :: 'n' :: 'i' :: 't' :: 'y' :: r0 =>
      some (JVal.jnum "Infinity", r0)
    | '-' :: 'I' :: 'n' :: 'f' :: 'i' :: 'n' :: 'i' :: 't' :: 'y' :: r0 =>
      some (JVal.jnum "-Infinity", r0)
    | cs =>
      (parseNumChars cs).map fun (raw, r1) => (JVal.jnum (String.mk raw), r1)

/-- `json.load` on the full text of a file: parse one value and require only
whitespace after it; `none` models `json.JSONDecodeError`.  Like CPython's
decoder, the non-standard constants `NaN`, `Infinity` and `-Infinity` are
accepted (CPython parses them to floats; here they are carried as `jnum`
tokens, which downstream shape tests treat as the non-object scalars they
are). -/
def jsonLoad (s : String) : Option JVal :=
  match parseV (2 * s.toList.length + 8) s.toList with
  | some (v, rest) => if jWs rest = [] then some v else none
  | none => none

/-! ### Filesystem model

A repository is its (resolved) root path string, the regular files below the
root (relative path plus read outcome) and the directories below the root, in
traversal-iteration order. -/

/-- Outcome of opening a file's bytes.
`text s`: the bytes decode as UTF-8 to `s`.
`binary sub`: the bytes are not valid UTF-8; a strict decode raises
`UnicodeDecodeError`, while `errors="ignore"` yields the substituted text
`sub`.  `unreadable`: opening or reading raises an `OSError`/`IOError`. -/
inductive Data where
  | text (s : String)
  | binary (sub : String)
  | unreadable

structure FS where
  root : String
  files : List (String × Data)
  dirs : List String
  /-- Directories whose entries cannot be listed: `iterdir()` on them raises
  `PermissionError`.  (`rglob`/`glob` suppress `PermissionError` internally,
  so an unlistable directory only removes its subtree from `files` — the one
  raising call site is the Go classifier's `cmd_dir.iterdir()`.) -/
  unreadableDirs : List String := []

/-- First file entry with the given relative path (models the unique inode). -/
def lookupFile (fs : FS) (p : String) : Option Data :=
  (fs.files.find? (fun f => f.1 = p)).map (fun f => f.2)

/-- `Path.exists()` for a regular file below the root. -/
def fsExists (fs : FS) (p : String) : Bool :=
  (lookupFile fs p).isSome

/-- `Path.exists()` / `Path.is_dir()` for a directory below the root. -/
def dirExists (fs : FS) (p : String) : Bool :=
  fs.dirs.any (fun d => d = p)

/-- Does listing this directory raise `PermissionError`? -/
def dirUnreadable (fs : FS) (p : String) : Bool :=
  fs.unreadableDirs.any (fun d => d = p)

/-- Absolute path string of a file below the root, `str(file_path)`. -/
def fullPath (fs : FS) (rel : String) : String :=
  fs.root ++ "/" ++ rel

/-- Outcome of `read_text(encoding="utf-8")` (strict decoding). -/
inductive ReadOut where
  | ok (s : String)
  | ioErr
  | encErr

/-- `path.read_text(encoding="utf-8")`: missing file and I/O failure give
`ioErr` (an `IOError`), undecodable bytes give `encErr`
(a `UnicodeDecodeError`, which is not an `IOError`). -/
def readStrict (fs : FS) (p : String) : ReadOut :=
  match lookupFile fs p with
  | some (Data.text s) => ReadOut.ok s
  | some (Data.binary _) => ReadOut.encErr
  | some Data.unreadable => ReadOut.ioErr
  | none => ReadOut.ioErr

/-- `read_text(encoding="utf-8", errors="ignore")` applied to a file's data:
encoding errors are substituted, only I/O errors fail. -/
def readIgnore : Data → Option String
  | Data.text s => some s
  | Data.binary sub => some sub
  | Data.unreadable => none

/-- The Python exceptions the source can actually leak (everything it catches
is handled inside the detector definitions): `UnicodeDecodeError` from strict
reads, `TypeError`/`AttributeError` from dictionary operations on unexpected
`package.json` shapes, and `PermissionError` from the Go classifier's
unguarded `cmd_dir.iterdir()`. -/
inductive PyErr where
  | unicodeDecodeError
  | typeError
  | attributeError
  | permissionError

/-- Fallible Python computation. -/
abbrev Exc (α : Type) := Except PyErr α

/-! ### Node classifier (`detect_node_project`) -/

/-- Keys of a parsed JSON object as a Python `dict` would enumerate them:
first occurrence wins for position (later duplicates only overwrite values). -/
def objKeys (kvs : List (String × JVal)) : List String :=
  dedupFirst (kvs.map (fun kv => kv.1))

/-- Value of `k` in a parsed JSON object as a Python `dict` lookup: the last
occurrence of the key wins. -/
def lookupLast (kvs : List (String × JVal)) (k : String) : Option JVal :=
  (kvs.reverse.find? (fun kv => kv.1 = k)).map (fun kv => kv.2)

/-- `pkg.get(k, default)`: raises `AttributeError` when the parsed document is
not an object (e.g. `package.json` holding a JSON array). -/
def pyGetD (v : JVal) (k : String) (d : JVal) : Exc JVal :=
  match v with
  | JVal.jobj kvs => Except.ok ((lookupLast kvs k).getD d)
  | _ => Except.error PyErr.attributeError

/-- Key sequence of `{**a, **b}`: mapping-unpacking raises `TypeError` unless
both operands are objects; the merged dict's keys are those of `a` in order
followed by the new keys of `b`.  Only the key sequence of the merged dict is
consumed downstream (membership tests and `list(deps.keys())`), so the model
carries exactly that. -/
def mergedDepNames (a b : JVal) : Exc (List String) :=
  match a, b with
  | JVal.jobj xs, JVal.jobj ys => Except.ok (dedupFirst (objKeys xs ++ objKeys ys))
  | _, _ => Except.error PyErr.typeError

/-- The framework priority chain of `detect_node_project`
(next > nuxt > angular/core > vue > react > express > fastify > koa > hono). -/
def nodeFramework (deps : List String) : Option String :=
  if "next" ∈ deps then some "nextjs"
  else if "nuxt" ∈ deps then some "nuxt"
  else if "@angular/core" ∈ deps then some "angular"
  else if "vue" ∈ deps then some "vue"
  else if "react" ∈ deps then some "react"
  else if "express" ∈ deps then some "express"
  else if "fastify" ∈ deps then some "fastify"
  else if "koa" ∈ deps then some "koa"
  else if "hono" ∈ deps then some "hono"
  else none

/-- Lock-file priority chain of `detect_node_project`
(pnpm > yarn > bun > npm default). -/
def nodePackageManager (fs : FS) : String :=
  if fsExists fs "pnpm-lock.yaml" then "pnpm"
  else if fsExists fs "yarn.lock" then "yarn"
  else if fsExists fs "bun.lockb" then "bun"
  else "npm"

structure NodeInfo where
  framework : Option String
  package_manager : String
  scripts : JVal
  typescript : Bool
  node_version : Option JVal
  dependencies : List String

/-- `detect_node_project`: presence is a parseable `package.json`; JSON decode
errors and `IOError` are caught and yield absent, while a `UnicodeDecodeError`
from the strict UTF-8 read (and shape errors from `pkg.get` / mapping
unpacking / `engines.get`) propagate. -/
def detect_node_project (fs : FS) : Exc (Option NodeInfo) :=
  if !(fsExists fs "package.json") then Except.ok none
  else
    match readStrict fs "package.json" with
    | ReadOut.ioErr => Except.ok none
    | ReadOut.encErr => Except.error PyErr.unicodeDecodeError
    | ReadOut.ok content =>
      match jsonLoad content with
      | none => Except.ok none
      | some pkg =>
        match pyGetD pkg "dependencies" (JVal.jobj []) with
        | Except.error e => Except.error e
        | Except.ok d1 =>
          match pyGetD pkg "devDependencies" (JVal.jobj []) with
          | Except.error e => Except.error e
          | Except.ok d2 =>
            match mergedDepNames d1 d2 with
            | Except.error e => Except.error e
            | Except.ok deps =>
              match pyGetD pkg "scripts" (JVal.jobj []) with
              | Except.error e => Except.error e
              | Except.ok scripts =>
                match pyGetD pkg "engines" (JVal.jobj []) with
                | Except.error e => Except.error e
                | Except.ok engines =>
                  match engines with
                  | JVal.jobj kvs =>
                    Except.ok (some
                      { framework := nodeFramework deps
                        package_manager := nodePackageManager fs
                        scripts := scripts
                        typescript :=
                          ("typescript" ∈ deps : Bool) || fsExists fs "tsconfig.json"
                        node_version := lookupLast kvs "node"
                        dependencies := deps })
                  | _ => Except.error PyErr.attributeError

/-! ### Python classifier (`detect_python_project`) -/

/-- Presence indicators of the Python classifier, in source order. -/
def pythonIndicators : List String :=
  ["requirements.txt", "pyproject.toml", "setup.py", "Pipfile", "poetry.lock"]

/-- One line's contribution to `re.findall(r'^\s*["\x27]?([a-zA-Z0-9_-]+)',
content, re.MULTILINE)`: skip leading whitespace, at most one quote, then a
nonempty identifier run.  (Line-local model of the multiline scan: because
`\s*` only ever crosses blank prefixes, the per-line captures coincide with
the anchored findall's captures.) -/
def pyprojectLineToken (l : List Char) : Option String :=
  let l1 := l.dropWhile pySpace
  let l2 := match l1 with
    | '"' :: r => r
    | '\'' :: r => r
    | r => r
  let tok := l2.takeWhile isIdentC
  if tok = [] then none else some (String.mk tok)

/-- All dependency tokens lexically extracted from `pyproject.toml` text. -/
def pyprojectDeps (content : String) : List String :=
  (splitLines content.toList).filterMap pyprojectLineToken

/-- Package-manager markers probed in `pyproject.toml` text
(`[tool.poetry]` > `[tool.pdm]` > `[project]`, default pip). -/
def pyprojectPM (content : String) : String :=
  if strContains content "[tool.poetry]" then "poetry"
  else if strContains content "[tool.pdm]" then "pdm"
  else if strContains content "[project]" then "pip"
  else "pip"

/-- One stripped line of `requirements.txt`: skip blanks and `#` comments,
then take the leading identifier run, lower-cased. -/
def requirementsLineToken (l : List Char) : Option String :=
  let s := stripChars l
  match s with
  | [] => none
  | '#' :: _ => none
  | c :: _ =>
    if isIdentC c then some (String.mk (lowerList (s.takeWhile isIdentC)))
    else none

def requirementsDeps (content : String) : List String :=
  (splitLines content.toList).filterMap requirementsLineToken

/-- Framework chain over the lower-cased dependency tokens. -/
def pythonFramework (depsLower : List String) : Option String :=
  if "fastapi" ∈ depsLower then some "fastapi"
  else if "django" ∈ depsLower then some "django"
  else if "flask" ∈ depsLower then some "flask"
  else if "starlette" ∈ depsLower then some "starlette"
  else if "tornado" ∈ depsLower then some "tornado"
  else if "streamlit" ∈ depsLower then some "streamlit"
  else if "gradio" ∈ depsLower then some "gradio"
  else none

def pythonEntryCandidates : List String :=
  ["main.py", "app.py", "run.py", "server.py", "manage.py"]

def mlLibraries : List String :=
  ["torch", "tensorflow", "keras", "scikit-learn", "pandas", "numpy"]

def lowerStr (s : String) : String := String.mk (lowerList s.toList)

structure PyInfo where
  framework : Option String
  package_manager : String
  entry_point : Option String
  dependencies : List String
  is_ml : Bool

/-- The `pyproject.toml` probe: the strict read's `IOError` is caught
(leaving deps empty and the manager at the default `pip`), its
`UnicodeDecodeError` is not. -/
def pyprojectStep (fs : FS) : Exc (List String × String) :=
  if fsExists fs "pyproject.toml" then
    match readStrict fs "pyproject.toml" with
    | ReadOut.ioErr => Except.ok ([], "pip")
    | ReadOut.encErr => Except.error PyErr.unicodeDecodeError
    | ReadOut.ok c => Except.ok (pyprojectDeps c, pyprojectPM c)
  else Except.ok ([], "pip")

/-- The `requirements.txt` probe, with the same error discipline. -/
def requirementsStep (fs : FS) : Exc (List String) :=
  if fsExists fs "requirements.txt" then
    match readStrict fs "requirements.txt" with
    | ReadOut.ioErr => Except.ok []
    | ReadOut.encErr => Except.error PyErr.unicodeDecodeError
    | ReadOut.ok c => Except.ok (requirementsDeps c)
  else Except.ok []

/-- σ-free part of `detect_python_project`: everything up to the final
`list(set(deps))`, which depends on the process's set-iteration order.  The
`dependencies` field here is the raw accumulated token list in append order
(pyproject tokens, then requirements tokens). -/
def pythonBase (fs : FS) : Exc (Option PyInfo) :=
  if !(pythonIndicators.any (fun ind => fsExists fs ind)) then Except.ok none
  else
    match pyprojectStep fs with
    | Except.error e => Except.error e
    | Except.ok (deps1, pm1) =>
      match requirementsStep fs with
      | Except.error e => Except.error e
      | Except.ok deps2 =>
        let deps := deps1 ++ deps2
        let pm := if fsExists fs "Pipfile" then "pipenv" else pm1
        let depsLower := deps.map lowerStr
        Except.ok (some
          { framework := pythonFramework depsLower
            package_manager := pm
            entry_point := pythonEntryCandidates.find? (fun c => fsExists fs c)
            dependencies := deps
            is_ml := mlLibraries.any (fun d => d ∈ depsLower) })

/-- `detect_python_project`; the parameter `σ` models the process-dependent
iteration order of a CPython `set` of strings: `list(set(deps))` is embedded
as `σ` applied to a canonical duplicate-free enumeration of the set. -/
def detect_python_project (σ : List String → List String) (fs : FS) :
    Exc (Option PyInfo) :=
  match pythonBase fs with
  | Except.error e => Except.error e
  | Except.ok none => Except.ok none
  | Except.ok (some b) =>
    Except.ok (some { b with dependencies := σ b.dependencies.dedup })

/-! ### Go classifier (`detect_go_project`) -/

structure GoInfo where
  module : Option String
  go_version : Option String
  entry_point : Option String

/-- `re.search(r'^module\s+(\S+)', content, re.MULTILINE)`: first line whose
text is `module`, whitespace, then a nonempty non-space token (line-local
model of the anchored search). -/
def goModuleOfLine (l : List Char) : Option String :=
  match l with
  | 'm' :: 'o' :: 'd' :: 'u' :: 'l' :: 'e' :: rest =>
    match rest.span pySpace with
    | ([], _) => none
    | (_ :: _, tok) =>
      let t := tok.takeWhile (fun c => !(pySpace c))
      if t = [] then none else some (String.mk t)
  | _ => none

def goModule (content : String) : Option String :=
  (splitLines content.toList).findSome? goModuleOfLine

/-- `re.search(r'^go\s+(\d+\.\d+)', ...)`: a line `go <digits>.<digits>`,
capturing exactly `major.minor`. -/
def goVersionOfLine (l : List Char) : Option String :=
  match l with
  | 'g' :: 'o' :: rest =>
    match rest.span pySpace with
    | ([], _) => none
    | (_ :: _, tok) =>
      let maj := tok.takeWhile Char.isDigit
      if maj = [] then none
      else
        match tok.drop maj.length with
        | '.' :: tl =>
          let minor := tl.takeWhile Char.isDigit
          if minor = [] then none
          else some (String.mk (maj ++ '.' :: minor))
        | _ => none
  | _ => none

def goVersion (content : String) : Option String :=
  (splitLines content.toList).findSome? goVersionOfLine

/-- Relative child name of a directory entry directly under `cmd/`. -/
def cmdChildName (d : String) : Option String :=
  match d.toList with
  | 'c' :: 'm' :: 'd' :: '/' :: rest =>
    if rest ≠ [] ∧ !(rest.any (fun c => c = '/')) then some (String.mk rest)
    else none
  | _ => none

/-- `cmd/` scan: first subdirectory (in directory-iteration order, which the
filesystem determines) that holds its own `main.go`. -/
def goCmdEntry (fs : FS) : Option String :=
  fs.dirs.findSome? (fun d =>
    match cmdChildName d with
    | some name =>
      if fsExists fs ("cmd/" ++ name ++ "/main.go") then
        some ("./cmd/" ++ name)
      else none
    | none => none)

/-- `detect_go_project`.  The `cmd/` scan calls `cmd_dir.iterdir()` outside
any `try` block, so an existing but unlistable `cmd` directory raises
`PermissionError`, which propagates out of the classifier. -/
def detect_go_project (fs : FS) : Exc (Option GoInfo) :=
  if !(fsExists fs "go.mod") then Except.ok none
  else
    match readStrict fs "go.mod" with
    | ReadOut.ioErr => Except.ok none
    | ReadOut.encErr => Except.error PyErr.unicodeDecodeError
    | ReadOut.ok content =>
      if fsExists fs "main.go" then
        Except.ok (some
          { module := goModule content
            go_version := goVersion content
            entry_point := some "." })
      else if dirExists fs "cmd" then
        if dirUnreadable fs "cmd" then Except.error PyErr.permissionError
        else
          Except.ok (some
            { module := goModule content
              go_version := goVersion content
              entry_point := goCmdEntry fs })
      else
        Except.ok (some
          { module := goModule content
            go_version := goVersion content
            entry_point := none })

/-! ### Rust classifier (`detect_rust_project`) -/

structure RustInfo where
  package_name : Option String
  is_workspace : Bool

/-- `re.search(r'^name\s*=\s*"([^"]+)"', ...)`: a line `name = "<text>"`
with a nonempty quoted capture (line-local model of the anchored search). -/
def rustNameOfLine (l : List Char) : Option String :=
  match l with
  | 'n' :: 'a' :: 'm' :: 'e' :: rest =>
    match (rest.dropWhile pySpace) with
    | '=' :: r1 =>
      match r1.dropWhile pySpace with
      | '"' :: r2 =>
        let nm := r2.takeWhile (fun c => c ≠ '"')
        match r2.drop nm.length with
        | '"' :: _ => if nm = [] then none else some (String.mk nm)
        | _ => none
      | _ => none
    | _ => none
  | _ => none

def rustPackageName (content : String) : Option String :=
  (splitLines content.toList).findSome? rustNameOfLine

def detect_rust_project (fs : FS) : Exc (Option RustInfo) :=
  if !(fsExists fs "Cargo.toml") then Except.ok none
  else
    match readStrict fs "Cargo.toml" with
    | ReadOut.ioErr => Except.ok none
    | ReadOut.encErr => Except.error PyErr.unicodeDecodeError
    | ReadOut.ok content =>
      Except.ok (some
        { package_name := rustPackageName content
          is_workspace := strContains content "[workspace]" })

/-! ### Java classifier (`detect_java_project`) -/

structure JavaInfo where
  build_tool : Option String
  framework : Option String

def javaFrameworkOfPom (content : String) : Option String :=
  if strContains content "spring-boot" then some "spring-boot"
  else if strContains content "quarkus" then some "quarkus"
  else if strContains content "micronaut" then some "micronaut"
  else none

def javaFrameworkOfGradle (content : String) : Option String :=
  if strContains content "spring-boot" || strContains content "org.springframework.boot"
  then some "spring-boot"
  else if strContains content "quarkus" then some "quarkus"
  else if strContains content "micronaut" then some "micronaut"
  else none

def detect_java_project (fs : FS) : Exc (Option JavaInfo) :=
  let pom := fsExists fs "pom.xml"
  let gradle := fsExists fs "build.gradle"
  let gradleKts := fsExists fs "build.gradle.kts"
  if !(pom || gradle || gradleKts) then Except.ok none
  else if pom then
    match readStrict fs "pom.xml" with
    | ReadOut.ioErr => Except.ok (some { build_tool := some "maven", framework := none })
    | ReadOut.encErr => Except.error PyErr.unicodeDecodeError
    | ReadOut.ok content =>
      Except.ok (some { build_tool := some "maven", framework := javaFrameworkOfPom content })
  else
    let gradleFile := if gradleKts then "build.gradle.kts" else "build.gradle"
    match readStrict fs gradleFile with
    | ReadOut.ioErr => Except.ok (some { build_tool := some "gradle", framework := none })
    | ReadOut.encErr => Except.error PyErr.unicodeDecodeError
    | ReadOut.ok content =>
      Except.ok (some { build_tool := some "gradle", framework := javaFrameworkOfGradle content })

/-! ### .NET classifier (`detect_dotnet_project`) -/

structure DotnetInfo where
  language : String
  framework : Option String
  project_file : Option String

/-- Paths with no directory component: `Path.glob` at the root is
non-recursive. -/
def isRootFile (p : String) : Bool :=
  !(p.toList.any (fun c => c = '/'))

/-- Does `p` end with the extension `ext` (model of a `*<ext>` glob)? -/
def hasSuffixExt (p ext : String) : Bool :=
  beginsWith ext.toList.reverse p.toList.reverse

/-- `repo_path.glob("*<ext>")`: root files with the extension, in
directory-iteration order. -/
def rootGlob (fs : FS) (ext : String) : List String :=
  (fs.files.filter (fun f => isRootFile f.1 && hasSuffixExt f.1 ext)).map
    (fun f => f.1)

def dotnetFramework (content : String) : Option String :=
  if strContains content "Microsoft.AspNetCore" then some "aspnet"
  else if strContains content "Microsoft.NET.Sdk.Web" then some "aspnet"
  else if strContains content "Microsoft.NET.Sdk.Worker" then some "worker"
  else none

def detect_dotnet_project (fs : FS) : Exc (Option DotnetInfo) :=
  let csproj := rootGlob fs ".csproj"
  let fsproj := rootGlob fs ".fsproj"
  let sln := rootGlob fs ".sln"
  if csproj = [] ∧ fsproj = [] ∧ sln = [] then Except.ok none
  else
    let language :=
      if csproj ≠ [] then "csharp" else if fsproj ≠ [] then "fsharp" else "unknown"
    let projectFile :=
      match csproj with
      | p :: _ => some p
      | [] => match fsproj with
        | p :: _ => some p
        | [] => none
    match projectFile with
    | none =>
      Except.ok (some { language := language, framework := none, project_file := none })
    | some pf =>
      match readStrict fs pf with
      | ReadOut.ioErr =>
        Except.ok (some
          { language := language, framework := none, project_file := some (fullPath fs pf) })
      | ReadOut.encErr => Except.error PyErr.unicodeDecodeError
      | ReadOut.ok content =>
        Except.ok (some
          { language := language
            framework := dotnetFramework content
            project_file := some (fullPath fs pf) })

/-! ### Service scanner (`detect_services`) -/

/-- Source-scan extensions.  The source writes them as a Python `set` literal
and iterates it; the visiting order only affects the insertion order of the
`detected` set, whose content is order-independent and whose output order the
model routes through `σ`, so a fixed list is an adequate embedding. -/
def scanExtensions : List String :=
  [".py", ".js", ".ts", ".go", ".java", ".cs", ".rb", ".php"]

/-- Root-level config files probed by the second pass, in source order. -/
def configFiles : List String :=
  ["compose.yml", "compose.yaml", "docker-compose.yml", "docker-compose.yaml",
   ".env", ".env.example"]

/-- The service signature table.  Every regex in the source is a literal
(escaped dots and parentheses included) searched case-insensitively, so each
entry is the literal text it denotes. -/
def servicePatterns : List (String × List String) :=
  [("postgresql",
    ["postgres://", "postgresql://", "psycopg2", "pg.", "PG::",
     "POSTGRES", "5432", "\"pg\"", "asyncpg"]),
   ("mysql",
    ["mysql://", "mysql2", "pymysql", "MySql", "MYSQL", "3306"]),
   ("mongodb",
    ["mongodb://", "mongoose", "pymongo", "MongoClient", "MONGO", "27017"]),
   ("redis",
    ["redis://", "ioredis", "redis.", "Redis(", "REDIS", "6379"]),
   ("elasticsearch",
    ["elasticsearch", "@elastic", "ELASTICSEARCH", "9200"]),
   ("rabbitmq",
    ["amqp://", "amqplib", "pika", "RabbitMQ", "RABBITMQ", "5672"]),
   ("kafka",
    ["kafka", "kafkajs", "kafka-python", "KAFKA", "9092"]),
   ("memcached",
    ["memcached", "pylibmc", "MEMCACHED", "11211"]),
   ("minio",
    ["minio", "MINIO", "9000"])]

/-- Directory markers excluded by the service scanner (line 362 of the
source). -/
def serviceExcludedDirs : List String :=
  ["node_modules", "vendor", ".git", "__pycache__", "venv"]

/-- Directory markers excluded by the port scanner (line 429 of the source);
note the absence of `venv`. -/
def portExcludedDirs : List String :=
  ["node_modules", "vendor", ".git", "__pycache__"]

/-- `any(part in str(file_path) for part in [...])` of the service scanner:
a substring-of-full-path test. -/
def serviceSkipPath (p : String) : Bool :=
  serviceExcludedDirs.any (fun m => strContains p m)

/-- The same test as performed by the port scanner. -/
def portSkipPath (p : String) : Bool :=
  portExcludedDirs.any (fun m => strContains p m)

/-- `repo_path.rglob(f"*{ext}")`: every file below the root whose name ends
with the extension, in traversal order. -/
def filesWithExt (fs : FS) (ext : String) : List (String × Data) :=
  fs.files.filter (fun f => hasSuffixExt f.1 ext)

/-- One file's contribution to the `detected` set: for each not-yet-detected
service, in table order, test its signatures in order and record the service
on the first hit. -/
def svcScanContent (det : List String) (content : String) : List String :=
  servicePatterns.foldl
    (fun det sp =>
      if sp.1 ∈ det then det
      else if sp.2.any (fun pat => strContainsCI content pat) then det ++ [sp.1]
      else det)
    det

/-- The recursive source-tree pass of `detect_services`: skip excluded paths,
read with `errors="ignore"` (I/O failures skip the file), accumulate the
detected set in insertion order. -/
def sourceScan (fs : FS) : List String :=
  scanExtensions.foldl
    (fun det ext =>
      (filesWithExt fs ext).foldl
        (fun det f =>
          if serviceSkipPath (fullPath fs f.1) then det
          else
            match readIgnore f.2 with
            | some c => svcScanContent det c
            | none => det)
        det)
    []

/-- The root-config pass of `detect_services`: a strict UTF-8 `read_text`
guarded only by `except IOError`, so undecodable bytes raise. -/
def configScanAux (fs : FS) : List String → List String → Exc (List String)
  | [], det => Except.ok det
  | name :: rest, det =>
    if fsExists fs name then
      match readStrict fs name with
      | ReadOut.ioErr => configScanAux fs rest det
      | ReadOut.encErr => Except.error PyErr.unicodeDecodeError
      | ReadOut.ok c => configScanAux fs rest (svcScanContent det c)
    else configScanAux fs rest det

/-- The `detected` set of `detect_services`, enumerated in insertion order. -/
def servicesDetected (fs : FS) : Exc (List String) :=
  configScanAux fs configFiles (sourceScan fs)

def serviceDefaults : List (String × String × Nat) :=
  [("postgresql", "postgres:16-alpine", 5432),
   ("mysql", "mysql:8", 3306),
   ("mongodb", "mongo:7", 27017),
   ("redis", "redis:7-alpine", 6379),
   ("elasticsearch", "elasticsearch:8.11.0", 9200),
   ("rabbitmq", "rabbitmq:3-management-alpine", 5672),
   ("kafka", "confluentinc/cp-kafka:7.5.0", 9092),
   ("memcached", "memcached:1.6-alpine", 11211),
   ("minio", "minio/minio:latest", 9000)]

structure Service where
  name : String
  image : Option String
  port : Option Nat

/-- `service_defaults.get(service, {})` followed by `.get("image")` /
`.get("port")`. -/
def mkService (s : String) : Service :=
  match serviceDefaults.find? (fun d => d.1 = s) with
  | some d => { name := s, image := some d.2.1, port := some d.2.2 }
  | none => { name := s, image := none, port := none }

/-- `detect_services`; the final `for service in detected:` loop iterates a
CPython `set`, modelled by `σ` applied to the insertion-order enumeration. -/
def detect_services (σ : List String → List String) (fs : FS) :
    Exc (List Service) :=
  match servicesDetected fs with
  | Except.error e => Except.error e
  | Except.ok det => Except.ok ((σ det).map mkService)

/-! ### Port scanner (`detect_ports`)

Each regex of `port_patterns` is embedded as the character scanner it
denotes; `findAllNat` models `re.findall`'s left-to-right non-overlapping
scan, resuming after each match. -/

/-- Case-insensitive literal consumption (the `re.IGNORECASE` flag applies to
the literal parts of the port patterns). -/
def dropLitCI : List Char → List Char → Option (List Char)
  | [], cs => some cs
  | _ :: _, [] => none
  | l :: ls, c :: cs => if lowerChar c = lowerChar l then dropLitCI ls cs else none

/-- A nonempty digit run (`(\d+)`, greedy), converted by `int()`. -/
def captureDigits (cs : List Char) : Option (Nat × List Char) :=
  let ds := cs.takeWhile Char.isDigit
  if ds = [] then none else some (digitsToNat ds, cs.drop ds.length)

/-- `\.listen\s*\(\s*(\d+)` at the current position. -/
def tryListen (cs : List Char) : Option (Nat × List Char) :=
  (dropLitCI ".listen".toList cs).bind fun r1 =>
    match r1.dropWhile pySpace with
    | '(' :: r2 => captureDigits (r2.dropWhile pySpace)
    | _ => none

/-- `<key>\s*[=:]\s*(\d+)` at the current position (used for the `PORT` and
`port` patterns, which coincide under `re.IGNORECASE`). -/
def tryKeyPort (key : String) (cs : List Char) : Option (Nat × List Char) :=
  (dropLitCI key.toList cs).bind fun r1 =>
    match r1.dropWhile pySpace with
    | '=' :: r2 => captureDigits (r2.dropWhile pySpace)
    | ':' :: r2 => captureDigits (r2.dropWhile pySpace)
    | _ => none

/-- `--port\s+(\d+)` at the current position. -/
def tryDashDashPort (cs : List Char) : Option (Nat × List Char) :=
  (dropLitCI "--port".toList cs).bind fun r1 =>
    match r1 with
    | c :: r2 => if pySpace c then captureDigits (r2.dropWhile pySpace) else none
    | [] => none

/-- `-p\s+(\d+)` at the current position. -/
def tryDashP (cs : List Char) : Option (Nat × List Char) :=
  (dropLitCI "-p".toList cs).bind fun r1 =>
    match r1 with
    | c :: r2 => if pySpace c then captureDigits (r2.dropWhile pySpace) else none
    | [] => none

/-- `re.findall` for one pattern: try the pattern at each position, jumping
over a match's extent, collecting every capture.  Fuel-indexed (any fuel at
least the text length is exact). -/
def findAllNat (m : List Char → Option (Nat × List Char)) :
    Nat → List Char → List Nat
  | 0, _ => []
  | _, [] => []
  | fuel + 1, c :: cs =>
    match m (c :: cs) with
    | some (n, rest) => n :: findAllNat m fuel rest
    | none => findAllNat m fuel cs

/-- The five entries of `port_patterns`, in source order. -/
def portMatchers : List (List Char → Option (Nat × List Char)) :=
  [tryListen, tryKeyPort "PORT", tryKeyPort "port", tryDashDashPort, tryDashP]

/-- All integers captured in one file's content, every pattern in order. -/
def portCapturesOfContent (s : String) : List Nat :=
  portMatchers.foldl
    (fun acc m => acc ++ findAllNat m (s.toList.length + 1) s.toList) []

/-- Port-scan extensions, written in the source as a set literal (iteration
order cannot influence the sorted result). -/
def portScanExtensions : List String :=
  [".py", ".js", ".ts", ".go", ".java", ".yml", ".yaml", ".env"]

/-- Every integer captured by any port pattern in any scanned file, before
range validation. -/
def allPortCaptures (fs : FS) : List Nat :=
  portScanExtensions.foldl
    (fun acc ext =>
      (filesWithExt fs ext).foldl
        (fun acc f =>
          if portSkipPath (fullPath fs f.1) then acc
          else
            match readIgnore f.2 with
            | some c => acc ++ portCapturesOfContent c
            | none => acc)
        acc)
    []

/-- `detect_ports`: keep captures in `[1000, 65535]`, collect them into a set
(`dedup`), and return `sorted(ports)`. -/
def detect_ports (fs : FS) : List Nat :=
  List.insertionSort (fun a b => a ≤ b)
    ((allPortCaptures fs).filter (fun p => 1000 ≤ p ∧ p ≤ 65535)).dedup

/-! ### Orchestrator (`analyze_repo`) -/

inductive RuntimeInfo where
  | node (i : NodeInfo)
  | python (i : PyInfo)
  | go (i : GoInfo)
  | rust (i : RustInfo)
  | java (i : JavaInfo)
  | dotnet (i : DotnetInfo)

/-- The detector loop of `analyze_repo`: fixed order Node, Python, Go, Rust,
Java, .NET; the first non-absent result is merged and the loop breaks. -/
def chooseRuntime (σ : List String → List String) (fs : FS) :
    Exc (Option RuntimeInfo) :=
  match detect_node_project fs with
  | Except.error e => Except.error e
  | Except.ok (some i) => Except.ok (some (RuntimeInfo.node i))
  | Except.ok none =>
    match detect_python_project σ fs with
    | Except.error e => Except.error e
    | Except.ok (some i) => Except.ok (some (RuntimeInfo.python i))
    | Except.ok none =>
      match detect_go_project fs with
      | Except.error e => Except.error e
      | Except.ok (some i) => Except.ok (some (RuntimeInfo.go i))
      | Except.ok none =>
        match detect_rust_project fs with
        | Except.error e => Except.error e
        | Except.ok (some i) => Except.ok (some (RuntimeInfo.rust i))
        | Except.ok none =>
          match detect_java_project fs with
          | Except.error e => Except.error e
          | Except.ok (some i) => Except.ok (some (RuntimeInfo.java i))
          | Except.ok none =>
            match detect_dotnet_project fs with
            | Except.error e => Except.error e
            | Except.ok (some i) => Except.ok (some (RuntimeInfo.dotnet i))
            | Except.ok none => Except.ok none

structure ExistingDocker where
  dockerfile : Bool
  docker_compose : Bool
  dockerignore : Bool

def existingDocker (fs : FS) : ExistingDocker :=
  { dockerfile := fsExists fs "Dockerfile"
    docker_compose :=
      fsExists fs "compose.yml" || fsExists fs "compose.yaml" ||
      fsExists fs "docker-compose.yml" || fsExists fs "docker-compose.yaml"
    dockerignore := fsExists fs ".dockerignore" }

/-- The report dictionary: its keys `path`, `name`, `runtime`, `services`,
`ports`, `existing_docker` are present in every report; `runtime = none`
models the key holding JSON `null`. -/
structure Report where
  path : String
  name : String
  runtime : Option RuntimeInfo
  services : List Service
  ports : List Nat
  existing_docker : ExistingDocker

/-- What `analyze_repo` returns: the error document for invalid inputs, or a
full report. -/
inductive Output where
  | errDoc (msg : String)
  | report (r : Report)

/-- State of the resolved input path: missing, a non-directory, or a
directory with the given tree. -/
inductive PathState where
  | missing
  | notDir
  | dir (fs : FS)

/-- `analyze_repo(path)`; `p` is the resolved path string
(`Path(repo_path).resolve()`), and `σ` the process's set-iteration order. -/
def analyze_repo (σ : List String → List String) (p : String)
    (st : PathState) : Exc Output :=
  match st with
  | PathState.missing => Except.ok (Output.errDoc ("Path does not exist: " ++ p))
  | PathState.notDir => Except.ok (Output.errDoc ("Path is not a directory: " ++ p))
  | PathState.dir fs =>
    match chooseRuntime σ fs with
    | Except.error e => Except.error e
    | Except.ok rt =>
      match detect_services σ fs with
      | Except.error e => Except.error e
      | Except.ok svcs =>
        Except.ok (Output.report
          { path := p
            name := pathName p
            runtime := rt
            services := svcs
            ports := detect_ports fs
            existing_docker := existingDocker fs })

/-! ### Side conditions and observations used by the specification -/

/-- A reordering function is a valid model of one process's set-iteration
order when it permutes every list: CPython enumerates a `set` in some order
determined by the process's hash seed, always covering each element once. -/
def okOrder (σ : List String → List String) : Prop :=
  ∀ l : List String, (σ l).Perm l

/-- The service names of a run's report, in report order (the order in which
`json.dumps` serializes them); empty for errors. -/
def serviceNamesOf : Exc Output → List String
  | Except.ok (Output.report r) => r.services.map Service.name
  | _ => []

/-- The report behind an output document, when it is one. -/
def reportOf : Output → Option Report
  | Output.report r => some r
  | Output.errDoc _ => none

/-- Equality of Python-classifier results up to the order of the
`dependencies` list (the one field built from a `set`). -/
def pyInfoEquiv (a b : PyInfo) : Prop :=
  a.framework = b.framework ∧ a.package_manager = b.package_manager ∧
  a.entry_point = b.entry_point ∧ a.is_ml = b.is_ml ∧
  a.dependencies.Perm b.dependencies

/-- Equality of classifier outcomes up to set-iteration order. -/
def runtimeEquiv : Option RuntimeInfo → Option RuntimeInfo → Prop
  | some (RuntimeInfo.python a), some (RuntimeInfo.python b) => pyInfoEquiv a b
  | x, y => x = y

/-- Equality of reports up to set-iteration order: all fields agree except
that `services` (and a Python runtime's `dependencies`) may be permuted. -/
def reportEquiv (r1 r2 : Report) : Prop :=
  r1.path = r2.path ∧ r1.name = r2.name ∧ runtimeEquiv r1.runtime r2.runtime ∧
  r1.services.Perm r2.services ∧ r1.ports = r2.ports ∧
  r1.existing_docker = r2.existing_docker

/-! ### Helper lemmas -/

theorem foldl_preserves {α β : Type} {P : α → Prop} {f : α → β → α}
    (hf : ∀ a b, P a → P (f a b)) :
    ∀ (l : List β) (a : α), P a → P (l.foldl f a) := by
  intro l
  induction l with
  | nil => intro a ha; exact ha
  | cons b bs ih => intro a ha; exact ih (f a b) (hf a b ha)

theorem nodup_svcScanContent {det : List String} (c : String)
    (h : det.Nodup) : (svcScanContent det c).Nodup := by
  unfold svcScanContent
  refine foldl_preserves (fun d sp hd => ?_) servicePatterns det h
  by_cases hmem : sp.1 ∈ d
  · simp [hmem, hd]
  · by_cases hhit : sp.2.any (fun pat => strContainsCI c pat)
    · simp [hmem, hhit, List.nodup_append, hd]
    · simp [hmem, hhit, hd]

theorem nodup_sourceScan (fs : FS) : (sourceScan fs).Nodup := by
  unfold sourceScan
  refine foldl_preserves (fun det ext hdet => ?_) scanExtensions [] List.nodup_nil
  refine foldl_preserves (fun det f hd => ?_) (filesWithExt fs ext) det hdet
  by_cases hskip : serviceSkipPath (fullPath fs f.1)
  · simp [hskip, hd]
  · cases hr : readIgnore f.2 with
    | none => simp [hskip, hr, hd]
    | some c => simp only [hskip, hr]; simpa using nodup_svcScanContent c hd

theorem nodup_configScanAux (fs : FS) :
    ∀ (names : List String) (det out : List String),
      det.Nodup → configScanAux fs names det = Except.ok out → out.Nodup := by
  intro names
  induction names with
  | nil =>
    intro det out hdet h
    unfold configScanAux at h
    cases h
    exact hdet
  | cons name rest ih =>
    intro det out hdet h
    unfold configScanAux at h
    by_cases hex : fsExists fs name
    · rw [if_pos hex] at h
      cases hr : readStrict fs name with
      | ioErr => rw [hr] at h; exact ih det out hdet h
      | encErr => rw [hr] at h; cases h
      | ok c => rw [hr] at h; exact ih _ out (nodup_svcScanContent c hdet) h
    · rw [if_neg hex] at h
      exact ih det out hdet h

theorem nodup_servicesDetected {fs : FS} {det : List String}
    (h : servicesDetected fs = Except.ok det) : det.Nodup :=
  nodup_configScanAux fs configFiles (sourceScan fs) det (nodup_sourceScan fs) h

theorem mkService_name (s : String) : (mkService s).name = s := by
  unfold mkService
  split <;> rfl

theorem map_name_map_mkService (l : List String) :
    (l.map mkService).map Service.name = l := by
  rw [List.map_map]
  exact List.map_congr_left (fun s _ => mkService_name s) |>.trans (List.map_id l)

theorem detect_node_fields {fs : FS} {i : NodeInfo}
    (h : detect_node_project fs = Except.ok (some i)) :
    i.framework = nodeFramework i.dependencies ∧
    i.package_manager = nodePackageManager fs := by
  unfold detect_node_project at h
  split at h
  · simp at h
  · split at h
    · simp at h
    · simp at h
    · split at h
      · simp at h
      · split at h
        · simp at h
        · split at h
          · simp at h
          · split at h
            · simp at h
            · split at h
              · simp at h
              · split at h
                · simp at h
                · split at h
                  · simp only [Except.ok.injEq, Option.some.injEq] at h
                    subst h
                    exact ⟨rfl, rfl⟩
                  · simp at h

theorem runtimeEquiv_refl : ∀ rt : Option RuntimeInfo, runtimeEquiv rt rt := by
  intro rt
  cases rt with
  | none => exact rfl
  | some ri =>
    cases ri with
    | python a => exact ⟨rfl, rfl, rfl, rfl, List.Perm.refl _⟩
    | node i => exact rfl
    | go i => exact rfl
    | rust i => exact rfl
    | java i => exact rfl
    | dotnet i => exact rfl

theorem chooseRuntime_equiv {σ1 σ2 : List String → List String} {fs : FS}
    {rt1 rt2 : Option RuntimeInfo} (h1 : okOrder σ1) (h2 : okOrder σ2)
    (e1 : chooseRuntime σ1 fs = Except.ok rt1)
    (e2 : chooseRuntime σ2 fs = Except.ok rt2) :
    runtimeEquiv rt1 rt2 := by
  unfold chooseRuntime at e1 e2
  cases hn : detect_node_project fs with
  | error e => rw [hn] at e1; simp at e1
  | ok rn =>
    rw [hn] at e1 e2
    cases rn with
    | some i =>
      dsimp only at e1 e2
      simp only [Except.ok.injEq] at e1 e2
      subst e1
      subst e2
      exact runtimeEquiv_refl _
    | none =>
      dsimp only at e1 e2
      unfold detect_python_project at e1 e2
      cases hp : pythonBase fs with
      | error e => rw [hp] at e1; simp at e1
      | ok rp =>
        rw [hp] at e1 e2
        cases rp with
        | some b =>
          dsimp only at e1 e2
          simp only [Except.ok.injEq] at e1 e2
          subst e1
          subst e2
          refine ⟨rfl, rfl, rfl, rfl, ?_⟩
          exact (h1 _).trans (h2 _).symm
        | none =>
          dsimp only at e1 e2
          have he : Except.ok (ε := PyErr) rt1 = Except.ok rt2 := e1.symm.trans e2
          simp only [Except.ok.injEq] at he
          subst he
          exact runtimeEquiv_refl _

/-! ### Claim theorems -/

/-- C7: for an existing path that is a regular file, `analyze_repo` returns
the structured error document `Path is not a directory: <path>`, and for a
nonexistent path the analogous document `Path does not exist: <path>`,
without raising. -/
theorem claim_c7_invalid_input_error_doc :
    ∀ (σ : List String → List String) (p : String),
      analyze_repo σ p PathState.notDir =
        Except.ok (Output.errDoc ("Path is not a directory: " ++ p)) ∧
      analyze_repo σ p PathState.missing =
        Except.ok (Output.errDoc ("Path does not exist: " ++ p)) :=
  fun _ _ => ⟨rfl, rfl⟩

/-- C1: whenever the Node classifier returns a non-absent result and `go.mod`
exists (so the Go classifier would also match), a successful run reports the
Node result as the runtime: the classifier chain takes the first non-absent
result and consults no later classifier. -/
theorem claim_c1_node_wins_over_go :
    ∀ (σ : List String → List String) (p : String) (fs : FS) (i : NodeInfo)
      (rep : Report),
      detect_node_project fs = Except.ok (some i) →
      fsExists fs "go.mod" = true →
      analyze_repo σ p (PathState.dir fs) = Except.ok (Output.report rep) →
      rep.runtime = some (RuntimeInfo.node i) := by
  intro σ p fs i rep hnode _hgo h
  unfold analyze_repo at h
  dsimp only at h
  unfold chooseRuntime at h
  rw [hnode] at h
  dsimp only at h
  split at h
  · simp at h
  · simp only [Except.ok.injEq, Output.report.injEq] at h
    subst h
    rfl

def fsC1 : FS :=
  { root := "/w/c1app"
    files := [("package.json", Data.text "\x7b\"dependencies\": \x7b\"express\": \"4.18.0\"\x7d\x7d"),
              ("go.mod", Data.text "module example.com/app\n\ngo 1.22\n")]
    dirs := [] }

def nodeInfoC1 : NodeInfo :=
  { framework := some "express"
    package_manager := "npm"
    scripts := JVal.jobj []
    typescript := false
    node_version := none
    dependencies := ["express"] }

def repC1 : Report :=
  { path := "/w/c1app"
    name := "c1app"
    runtime := some (RuntimeInfo.node nodeInfoC1)
    services := []
    ports := []
    existing_docker := { dockerfile := false, docker_compose := false, dockerignore := false } }

theorem claim_c1_witness : repC1.runtime = some (RuntimeInfo.node nodeInfoC1) :=
  claim_c1_node_wins_over_go (fun l => l) "/w/c1app" fsC1 nodeInfoC1 repC1 rfl rfl rfl

/-- C8: any non-absent Node result whose dependency names include both `next`
and `react` reports framework `nextjs`: the framework is the first present
name of the fixed priority chain, and `next` precedes `react` there. -/
theorem claim_c8_next_beats_react :
    ∀ (fs : FS) (i : NodeInfo),
      detect_node_project fs = Except.ok (some i) →
      "next" ∈ i.dependencies → "react" ∈ i.dependencies →
      i.framework = some "nextjs" := by
  intro fs i h hnext _hreact
  rw [(detect_node_fields h).1]
  unfold nodeFramework
  rw [if_pos hnext]

def fsC8 : FS :=
  { root := "/w/c8app"
    files := [("package.json", Data.text "\x7b\"dependencies\": \x7b\"next\": \"14.0.0\", \"react\": \"18.2.0\"\x7d\x7d")]
    dirs := [] }

def nodeInfoC8 : NodeInfo :=
  { framework := some "nextjs"
    package_manager := "npm"
    scripts := JVal.jobj []
    typescript := false
    node_version := none
    dependencies := ["next", "react"] }

theorem claim_c8_witness :
    detect_node_project fsC8 = Except.ok (some nodeInfoC8) ∧
    nodeInfoC8.framework = some "nextjs" :=
  ⟨rfl, claim_c8_next_beats_react fsC8 nodeInfoC8 rfl (by decide) (by decide)⟩

/-- C9: any non-absent Node result for a root holding both `pnpm-lock.yaml`
and `yarn.lock` reports package manager `pnpm`: lock files are probed in the
fixed order pnpm, yarn, bun, with default npm. -/
theorem claim_c9_pnpm_beats_yarn :
    ∀ (fs : FS) (i : NodeInfo),
      detect_node_project fs = Except.ok (some i) →
      fsExists fs "pnpm-lock.yaml" = true →
      fsExists fs "yarn.lock" = true →
      i.package_manager = "pnpm" := by
  intro fs i h hpnpm _hyarn
  rw [(detect_node_fields h).2]
  unfold nodePackageManager
  rw [if_pos hpnpm]

def fsC9 : FS :=
  { root := "/w/c9app"
    files := [("package.json", Data.text "\x7b\"dependencies\": \x7b\"koa\": \"2.15.0\"\x7d\x7d"),
              ("pnpm-lock.yaml", Data.text "lockfileVersion: 9.0\n"),
              ("yarn.lock", Data.text "# yarn lockfile v1\n")]
    dirs := [] }

def nodeInfoC9 : NodeInfo :=
  { framework := some "koa"
    package_manager := "pnpm"
    scripts := JVal.jobj []
    typescript := false
    node_version := none
    dependencies := ["koa"] }

theorem claim_c9_witness :
    detect_node_project fsC9 = Except.ok (some nodeInfoC9) ∧
    nodeInfoC9.package_manager = "pnpm" :=
  ⟨rfl, claim_c9_pnpm_beats_yarn fsC9 nodeInfoC9 rfl rfl rfl⟩

/-- C10: a successful run on a directory always yields a full report (never
the error document), whose `path` and `name` fields are the resolved path and
its last component; and when no classifier matches, the `runtime` field is
still present, holding null (`none`) rather than being omitted — the report
record carries the keys `path`, `name`, `runtime`, `services`, `ports` and
`existing_docker` in every case. -/
theorem claim_c10_report_keys :
    ∀ (σ : List String → List String) (p : String) (fs : FS) (out : Output),
      analyze_repo σ p (PathState.dir fs) = Except.ok out →
      (reportOf out).isSome = true ∧
      (reportOf out).map Report.path = some p ∧
      (reportOf out).map Report.name = some (pathName p) ∧
      (chooseRuntime σ fs = Except.ok none →
        (reportOf out).map Report.runtime = some none) := by
  intro σ p fs out h
  unfold analyze_repo at h
  dsimp only at h
  split at h
  · simp at h
  · rename_i rt heq
    split at h
    · simp at h
    · simp only [Except.ok.injEq] at h
      subst h
      refine ⟨rfl, rfl, rfl, ?_⟩
      intro hnone
      rw [heq] at hnone
      simp only [Except.ok.injEq] at hnone
      subst hnone
      rfl

def fsC10 : FS :=
  { root := "/w/c10app"
    files := [("README.md", Data.text "hello\n")]
    dirs := [] }

def repC10 : Report :=
  { path := "/w/c10app"
    name := "c10app"
    runtime := none
    services := []
    ports := []
    existing_docker := { dockerfile := false, docker_compose := false, dockerignore := false } }

theorem claim_c10_witness :
    (reportOf (Output.report repC10)).isSome = true ∧
    (reportOf (Output.report repC10)).map Report.runtime = some none := by
  have h := claim_c10_report_keys (fun l => l) "/w/c10app" fsC10
    (Output.report repC10) rfl
  exact ⟨h.1, h.2.2.2 rfl⟩

def fsC4 : FS :=
  { root := "/w/c4app"
    files := [("db.py", Data.text "url = 'postgres://u:p@h/db'\n# postgres:// postgres:// postgres:// postgres://\n")]
    dirs := [] }

/-- C4: service identifiers in a report are pairwise distinct — the
`detected` set admits each identifier once, whatever the number of matching
files or signatures — and a repository whose only match-bearing file contains
`postgres://` five times yields exactly one `postgresql` finding with image
`postgres:16-alpine` and port 5432. -/
theorem claim_c4_service_uniqueness :
    (∀ (σ : List String → List String) (fs : FS) (l : List Service),
      okOrder σ → detect_services σ fs = Except.ok l →
      (l.map Service.name).Nodup) ∧
    detect_services (fun l => l) fsC4 =
      Except.ok [{ name := "postgresql", image := some "postgres:16-alpine",
                   port := some 5432 }] := by
  constructor
  · intro σ fs l hσ h
    unfold detect_services at h
    split at h
    · simp at h
    · rename_i det heq
      simp only [Except.ok.injEq] at h
      subst h
      rw [map_name_map_mkService]
      exact ((hσ det).nodup_iff).mpr (nodup_servicesDetected heq)
  · rfl

theorem claim_c4_witness :
    (([{ name := "postgresql", image := some "postgres:16-alpine",
         port := some 5432 }] : List Service).map Service.name).Nodup :=
  claim_c4_service_uniqueness.1 (fun l => l) fsC4 _
    (fun l => List.Perm.refl l) claim_c4_service_uniqueness.2

def fsC5 : FS :=
  { root := "/w/c5app"
    files := [("srv.js", Data.text "app.listen(8080)\nport=70000\nPORT: 42\n")]
    dirs := [] }

/-- C5: a captured integer is kept exactly when it lies in `[1000, 65535]`;
the returned list is strictly ascending (so a duplicate-free enumeration of
the valid ports); and on a file with `app.listen(8080)`, `port=70000` and
`PORT: 42`, the scanner captures all three numbers (70000 and 42 twice, once
per case-variant pattern) but reports only `[8080]`. -/
theorem claim_c5_port_validation :
    (∀ (fs : FS) (p : Nat),
      p ∈ detect_ports fs ↔ (p ∈ allPortCaptures fs ∧ 1000 ≤ p ∧ p ≤ 65535)) ∧
    (∀ fs : FS, (detect_ports fs).Sorted (· < ·)) ∧
    detect_ports fsC5 = [8080] ∧
    allPortCaptures fsC5 = [8080, 70000, 42, 70000, 42] := by
  refine ⟨?_, ?_, rfl, rfl⟩
  · intro fs p
    unfold detect_ports
    rw [(List.perm_insertionSort _ _).mem_iff, List.mem_dedup, List.mem_filter]
    simp
  · intro fs
    unfold detect_ports
    have hnd : (List.insertionSort (fun a b => a ≤ b)
        ((allPortCaptures fs).filter (fun p => 1000 ≤ p ∧ p ≤ 65535)).dedup).Nodup :=
      ((List.perm_insertionSort _ _).nodup_iff).mpr (List.nodup_dedup _)
    exact (List.sorted_insertionSort _ _).lt_of_le hnd

/-- C6, counterexample: the exclusion rules of the two scanners are not the
same — a path below a `venv` directory is skipped by the service scanner but
scanned by the port scanner, because the port scanner's marker list omits
`venv`. -/
theorem claim_c6_counterexample :
    serviceSkipPath "/w/proj/venv/app.py" = true ∧
    portSkipPath "/w/proj/venv/app.py" = false ∧
    serviceSkipPath "/w/proj/venv/app.py" ≠ portSkipPath "/w/proj/venv/app.py" := by
  exact ⟨by decide, by decide, by decide⟩

/-- C6 as amended: the port scanner's exclusion test differs from the service
scanner's exactly by the `venv` marker — a path is skipped by the service
scanner iff it is skipped by the port scanner or contains `venv` as a
substring (so the two tests agree precisely on paths without `venv`). -/
theorem claim_c6_amended_exclusion :
    ∀ p : String,
      serviceSkipPath p = (portSkipPath p || strContains p "venv") := by
  intro p
  unfold serviceSkipPath portSkipPath serviceExcludedDirs portExcludedDirs
  simp [List.any_cons, List.any_nil, Bool.or_assoc]

def fsC3 : FS :=
  { root := "/w/c3app"
    files := [("a.py", Data.text "import psycopg2\nimport pymysql\n")]
    dirs := [] }

/-- C3, counterexample: re-running the analysis is not byte-identical.  The
`for service in detected:` loop iterates a CPython `set` of strings, whose
order follows the per-process randomized hash seed; on a repository whose
files match both postgresql and mysql, one achievable order serializes
`["postgresql", "mysql"]` and another `["mysql", "postgresql"]` (observed
under `PYTHONHASHSEED=0` and `=1`), so the serialized reports of two runs
differ in the order of `services`. -/
theorem claim_c3_counterexample :
    serviceNamesOf (analyze_repo (fun l => l) "/w/c3app" (PathState.dir fsC3)) =
      ["postgresql", "mysql"] ∧
    serviceNamesOf (analyze_repo (fun l => List.reverse l) "/w/c3app"
      (PathState.dir fsC3)) = ["mysql", "postgresql"] ∧
    (["postgresql", "mysql"] : List String) ≠ ["mysql", "postgresql"] :=
  ⟨rfl, rfl, by decide⟩

/-- C3 as amended: two runs over the same unmodified tree agree on every
field of the report except for ordering drawn from set iteration — `path`,
`name`, `ports`, `existing_docker` and any non-Python runtime coincide
exactly, while `services` (and a Python runtime's `dependencies` list) of one
run is a permutation of the other's; byte-identical output is recovered
exactly when the two processes enumerate their sets in the same order (same
hash seed). -/
theorem claim_c3_amended_deterministic_up_to_set_order :
    ∀ (σ1 σ2 : List String → List String) (p : String) (fs : FS)
      (r1 r2 : Report),
      okOrder σ1 → okOrder σ2 →
      analyze_repo σ1 p (PathState.dir fs) = Except.ok (Output.report r1) →
      analyze_repo σ2 p (PathState.dir fs) = Except.ok (Output.report r2) →
      reportEquiv r1 r2 := by
  intro σ1 σ2 p fs r1 r2 h1 h2 e1 e2
  unfold analyze_repo at e1 e2
  dsimp only at e1 e2
  cases hc1 : chooseRuntime σ1 fs with
  | error e => rw [hc1] at e1; simp at e1
  | ok rt1 =>
    cases hc2 : chooseRuntime σ2 fs with
    | error e => rw [hc2] at e2; simp at e2
    | ok rt2 =>
      rw [hc1] at e1
      rw [hc2] at e2
      dsimp only at e1 e2
      unfold detect_services at e1 e2
      cases hd : servicesDetected fs with
      | error e => rw [hd] at e1; simp at e1
      | ok det =>
        rw [hd] at e1 e2
        dsimp only at e1 e2
        simp only [Except.ok.injEq, Output.report.injEq] at e1 e2
        subst e1
        subst e2
        refine ⟨rfl, rfl, ?_, ?_, rfl, rfl⟩
        · exact chooseRuntime_equiv h1 h2 hc1 hc2
        · exact ((h1 det).trans (h2 det).symm).map mkService

def repC3a : Report :=
  { path := "/w/c3app"
    name := "c3app"
    runtime := none
    services := [{ name := "postgresql", image := some "postgres:16-alpine", port := some 5432 },
                 { name := "mysql", image := some "mysql:8", port := some 3306 }]
    ports := []
    existing_docker := { dockerfile := false, docker_compose := false, dockerignore := false } }

def repC3b : Report :=
  { path := "/w/c3app"
    name := "c3app"
    runtime := none
    services := [{ name := "mysql", image := some "mysql:8", port := some 3306 },
                 { name := "postgresql", image := some "postgres:16-alpine", port := some 5432 }]
    ports := []
    existing_docker := { dockerfile := false, docker_compose := false, dockerignore := false } }

theorem claim_c3_witness : reportEquiv repC3a repC3b :=
  claim_c3_amended_deterministic_up_to_set_order (fun l => l)
    (fun l => List.reverse l) "/w/c3app" fsC3 repC3a repC3b
    (fun l => List.Perm.refl l) (fun l => List.reverse_perm l) rfl rfl

end AnalyzeRepo
